import Mathlib

/-!
Verification of the TimeLogic frontend (Angular + Firebase Auth) against its
natural-language specification.

The TypeScript sources are shallowly embedded: pure functions become Lean
functions, component methods become explicit state-passing functions on record
types, asynchronous SDK calls become parameters carrying the call's outcome
(`Except FirebaseError Unit`), and JavaScript runtime details (string
truthiness, string comparison by UTF-16 code unit, `trim`) are embedded
explicitly so that every conditional of the source is mirrored.
-/

/- ===== JavaScript primitives used across the embedded files ===== -/

/-- Truthiness of a JS `string | null | undefined` value: `null`, `undefined`
and the empty string are falsy, every other string is truthy. -/
def jsTruthyOpt : Option String → Bool
  | none => false
  | some s => s ≠ ""

/-- JS `<` on strings: lexicographic comparison of code units
(`Char.toNat` stands for the code unit; identical for the BMP strings used
here). -/
def jsLtChars : List Char → List Char → Bool
  | [], [] => false
  | [], _ :: _ => true
  | _ :: _, [] => false
  | a :: as, b :: bs =>
    if a.toNat < b.toNat then true
    else if b.toNat < a.toNat then false
    else jsLtChars as bs

/-- JS `a < b` on strings. -/
def jsLt (a b : String) : Bool := jsLtChars a.data b.data

/-- JS `a <= b` on strings (equivalently `!(b < a)`). -/
def jsLe (a b : String) : Bool := ! jsLt b a

/-- Whitespace recognised by JS `String.prototype.trim` (the characters that
can occur in this code base). -/
def isJsSpace (c : Char) : Bool :=
  c = ' ' || c = '\t' || c = '\n' || c = '\r'

/-- JS `String.prototype.trim`: strip leading and trailing whitespace. -/
def jsTrim (s : String) : String :=
  ⟨((s.data.dropWhile isJsSpace).reverse.dropWhile isJsSpace).reverse⟩

/-- JS `String.prototype.startsWith` on the underlying code units. -/
def jsStartsWith (s pre : List Char) : Bool :=
  match pre, s with
  | [], _ => true
  | _ :: _, [] => false
  | p :: ps, c :: cs => p = c && jsStartsWith cs ps

/- ===== core/errors/firebase-errors.ts ===== -/

/-- `humanizeFirebaseError` (core/errors/firebase-errors.ts): static lookup
from a Firebase error code (possibly absent) to a Spanish user-facing message;
the `switch` with a fallthrough from `auth/invalid-credential` to
`auth/wrong-password` is rendered as an if-chain with a disjunction. -/
def humanizeFirebaseError (code : Option String) : String :=
  if code = some "auth/email-already-in-use" then "Este correo ya está registrado."
  else if code = some "auth/weak-password" then "La contraseña es demasiado débil."
  else if code = some "auth/invalid-email" then "El correo no es válido."
  else if code = some "auth/invalid-credential" ∨ code = some "auth/wrong-password" then
    "Credenciales incorrectas."
  else if code = some "auth/network-request-failed" then "Problema de red. Inténtalo de nuevo."
  else "Error desconocido. Vuelve a intentarlo."

/- ===== AuthService (core/services/auth.service.ts) ===== -/

/-- Error object thrown by the Firebase SDK; only its `code` field is
inspected by the embedded code. -/
structure FirebaseError where
  code : String
deriving DecidableEq

/-- `AuthService.requestPasswordReset` (hardened variant): forwards to firebase
`sendPasswordResetEmail`, swallowing the `auth/user-not-found` rejection so the
caller cannot distinguish existing from non-existing accounts; every other
rejection is rethrown. The SDK call's outcome is passed in as a parameter. -/
def requestPasswordReset (sendResult : Except FirebaseError Unit) :
    Except FirebaseError Unit :=
  match sendResult with
  | .ok _ => .ok ()
  | .error e => if e.code = "auth/user-not-found" then .ok () else .error e

/-- `AuthService.requestPasswordReset` (plain variant, auth.service.ts lines
95-99): `await sendPasswordResetEmail(this.auth, email);` with no catch — any
SDK rejection, `auth/user-not-found` included, propagates to the caller (the
comment there defers the generic message to the UI). -/
def requestPasswordResetPlain (sendResult : Except FirebaseError Unit) :
    Except FirebaseError Unit :=
  match sendResult with
  | .ok _ => .ok ()
  | .error e => .error e

/-- Modelled from the spec: the identity provider's password-reset dispatch
(`sendPasswordResetEmail`, external SDK code not in this repository) sends the
email and resolves when an account exists for the address, and rejects with
code `auth/user-not-found` when none does. -/
def sendPasswordResetEmailResult (accountExists : Bool) : Except FirebaseError Unit :=
  if accountExists then .ok () else .error ⟨"auth/user-not-found"⟩

/-- Local session state touched by `AuthService.logout`: the in-memory
`tokenSubject` value and the `token` key of `localStorage`. -/
structure AuthLocalState where
  tokenSubject : Option String
  storageToken : Option String
deriving DecidableEq

/-- `AuthService.logout`: `try { await signOut(auth) } finally
{ tokenSubject.next(null); localStorage.removeItem('token') }`. The `signOut`
outcome is a parameter; the `finally` block runs on both paths and the error,
if any, still propagates. -/
def logout (signOutResult : Except FirebaseError Unit) (s : AuthLocalState) :
    Except FirebaseError Unit × AuthLocalState :=
  match signOutResult with
  | .ok _ => (.ok (), { s with tokenSubject := none, storageToken := none })
  | .error e => (.error e, { s with tokenSubject := none, storageToken := none })

/- ===== Route guards (core/guards/auth.guard.ts) ===== -/

/-- Result of a guard: `true` (allow), `false` (deny), or a `UrlTree`
redirect with a path and query parameters. -/
inductive GuardResult where
  | allow : GuardResult
  | deny : GuardResult
  | redirect (path : List String) (queryParams : List (String × String)) : GuardResult
deriving DecidableEq

/-- Query parameters of a guard result (empty unless it is a redirect). -/
def queryParamsOf : GuardResult → List (String × String)
  | .redirect _ q => q
  | _ => []

/-- `authGuard` in its `CanMatchFn` form: awaits `authReady$`, then
`token ? true : router.createUrlTree(['/auth/login'])` where `token` is the
result of `getValidToken()`. Note the redirect carries no query parameters. -/
def authGuardCanMatch (validToken : Option String) : GuardResult :=
  if jsTruthyOpt validToken then .allow
  else .redirect ["/auth/login"] []

/-- `authGuard` in its `CanActivateFn` form:
`const token = await auth.getValidToken?.() ?? auth.getToken();` then
`true` when truthy, otherwise a redirect to `/auth/login` with
`queryParams: { returnUrl: state.url }`. `validToken` is the
`getValidToken()` result and `storedToken` the `getToken()` fallback,
combined by `??` (null coalescing). -/
def tokenWithFallback (validToken storedToken : Option String) : Option String :=
  match validToken with
  | some t => some t
  | none => storedToken

/-- Body of the `CanActivateFn` guard after the token lookup. -/
def authGuardCanActivate (validToken storedToken : Option String) (stateUrl : String) :
    GuardResult :=
  if jsTruthyOpt (tokenWithFallback validToken storedToken) then .allow
  else .redirect ["/auth/login"] [("returnUrl", stateUrl)]

/- ===== HTTP interceptor (core/interceptors/auth.interceptor.ts) ===== -/

/-- An outgoing HTTP request as the interceptor sees it. -/
structure HttpReq where
  method : String
  url : String
  headers : List (String × String)
  body : String
deriving DecidableEq

/-- `req.clone({ setHeaders: { name: value } })`: the named header is set,
replacing any previous value; everything else is kept. -/
def setHeader (name value : String) (hs : List (String × String)) :
    List (String × String) :=
  (name, value) :: hs.filter (fun p => p.1 ≠ name)

/-- `authInterceptor`: requests whose URL does not start with
`environment.apiBaseUrl` pass through untouched; otherwise the
`getValidToken()` result (parameter `token`) is attached as an
`Authorization: Bearer <token>` header when truthy, and the request passes
through untouched when it is not. -/
def authInterceptor (apiBaseUrl : String) (token : Option String) (req : HttpReq) :
    HttpReq :=
  if ¬ jsStartsWith req.url.data apiBaseUrl.data then req
  else if jsTruthyOpt token then
    { req with headers := setHeader "Authorization" ("Bearer " ++ token.getD "") req.headers }
  else req

/- ===== LoginComponent (features/auth/login/login.component.ts) ===== -/

/-- Modelled from the spec: the framework's syntactic email validator
(`Validators.email`, Angular code not in this repository) — a minimal
syntactic check: exactly one `@`, neither at the first nor the last position,
and no blank character. -/
def emailSyntaxOk (s : String) : Bool :=
  let cs := s.data
  cs.count '@' = 1 && cs.head? ≠ some '@' && cs.getLast? ≠ some '@'
    && ! cs.contains ' '

/-- `Validators.required` on a string control: fails exactly on the empty
string. -/
def requiredOk (s : String) : Bool := s ≠ ""

/-- `Validators.minLength n`: passes on the empty value (required handles
that) and otherwise demands at least `n` characters. -/
def minLengthOk (n : Nat) (s : String) : Bool := s.length = 0 || n ≤ s.length

/-- Validity of the `email` control of `loginForm`
(`['', [Validators.required, Validators.email]]`); `Validators.email` also
passes on the empty value. -/
def emailControlValid (s : String) : Bool :=
  requiredOk s && (s.length = 0 || emailSyntaxOk s)

/-- Validity of the `password` control
(`['', [Validators.required, Validators.minLength(6)]]`). -/
def passwordControlValid (s : String) : Bool :=
  requiredOk s && minLengthOk 6 s

/-- Value of the reactive `loginForm` (`email`, `password`, `rememberMe`). -/
structure LoginFormState where
  email : String
  password : String
  rememberMe : Bool
deriving DecidableEq

/-- `loginForm.valid`: every control passes its validators
(the `rememberMe` control has none). -/
def loginFormValid (f : LoginFormState) : Bool :=
  emailControlValid f.email && passwordControlValid f.password

/-- Mutable fields of `LoginComponent` touched by `onSubmit`, plus the
`rememberedEmail` key of `localStorage`. -/
structure LoginComponentState where
  form : LoginFormState
  loading : Bool
  errorMessage : Option String
  rememberedEmailStore : Option String
deriving DecidableEq

/-- Externally observable actions `onSubmit` can take. -/
inductive LoginEffect where
  | loginCall (email password : String) : LoginEffect
  | snackOpen (message : String) : LoginEffect
  | navigate (path : String) : LoginEffect
deriving DecidableEq

/-- `LoginComponent.onSubmit`: early return when `loginForm.invalid`;
otherwise calls `authService.login`, whose outcome is the parameter
`loginResult`. On success it updates the remembered email, shows the success
snackbar and navigates to `/dashboard`; on failure it sets `errorMessage` and
shows the error snackbar. `loading` is set while awaiting and reset in the
`finally`, so it ends `false` on both completed paths. -/
def onSubmit (loginResult : Except FirebaseError Unit) (s : LoginComponentState) :
    LoginComponentState × List LoginEffect :=
  if ¬ loginFormValid s.form then (s, [])
  else
    match loginResult with
    | .ok _ =>
      ({ s with loading := false, errorMessage := none,
                rememberedEmailStore :=
                  if s.form.rememberMe then some s.form.email
                  else none },
       [LoginEffect.loginCall s.form.email s.form.password,
        LoginEffect.snackOpen "¡Login correcto! Redirigiendo...",
        LoginEffect.navigate "/dashboard"])
    | .error _ =>
      ({ s with loading := false, errorMessage := some "Correo o contraseña incorrectos" },
       [LoginEffect.loginCall s.form.email s.form.password,
        LoginEffect.snackOpen "Correo o contraseña incorrectos"])

/- ===== PunchClockComponent (features/dashboard/punch-clock) ===== -/

/-- `EventType = 'Entrada' | 'Salida' | 'Pausa' | 'Reanudación'`. -/
inductive EventType where
  | entrada : EventType
  | salida : EventType
  | pausa : EventType
  | reanudacion : EventType
deriving DecidableEq

/-- A `PunchEvent` history entry. `id` and `at` are both
`when.toISOString()` in the source — an injective rendering of the
timestamp — so both are embedded as the timestamp itself (epoch ms). -/
structure PunchEvent where
  id : Int
  type : EventType
  «at» : Int
  note : Option String
deriving DecidableEq

/-- `PunchClockComponent.MAX_HISTORY`. -/
def MAX_HISTORY : Nat := 30

/-- `PunchClockComponent.pushEvent`: prepend the new event
(`note || undefined` turns an empty note into `undefined`), then truncate with
`slice(0, MAX_HISTORY)` when the list grew beyond `MAX_HISTORY`. -/
def pushEvent (type : EventType) (when : Int) (note : Option String)
    (list : List PunchEvent) : List PunchEvent :=
  let evt : PunchEvent :=
    { id := when, type := type, «at» := when,
      note := note.bind (fun n => if n = "" then none else some n) }
  let next := evt :: list
  if next.length > MAX_HISTORY then next.take MAX_HISTORY else next

/-- The signal-held fields of `PunchClockComponent` (`now` is the signal the
one-second interval refreshes; `pauseText` the ngModel-bound textarea). The
`live` announcement string is display-only and omitted. -/
structure PunchClockState where
  isWorking : Bool
  isPaused : Bool
  lastIn : Option Int
  pausedAt : Option Int
  totalPausedMs : Int
  now : Int
  pauseDialogVisible : Bool
  pauseText : String
  events : List PunchEvent
deriving DecidableEq

/-- Component state right after construction. -/
def mkInitial (t0 : Int) : PunchClockState :=
  { isWorking := false, isPaused := false, lastIn := none, pausedAt := none,
    totalPausedMs := 0, now := t0, pauseDialogVisible := false,
    pauseText := "", events := [] }

/-- The one-second interval body: `this.now.set(new Date())`. -/
def tickNow (t : Int) (s : PunchClockState) : PunchClockState :=
  { s with now := t }

/-- `PunchClockComponent.toggleWork`: clock in when off shift (resetting the
pause accumulator), clock out when on shift. -/
def toggleWork (nowT : Int) (s : PunchClockState) : PunchClockState :=
  if ¬ s.isWorking then
    { s with lastIn := some nowT, totalPausedMs := 0, isWorking := true,
             isPaused := false,
             events := pushEvent .entrada nowT none s.events }
  else
    { s with isWorking := false, isPaused := false,
             events := pushEvent .salida nowT none s.events }

/-- `PunchClockComponent.openPause`: only while working and not paused; clears
the textarea and opens the dialog. -/
def openPause (s : PunchClockState) : PunchClockState :=
  if ¬ s.isWorking || s.isPaused then s
  else { s with pauseText := "", pauseDialogVisible := true }

/-- The ngModel binding writing the pause textarea. -/
def setPauseText (txt : String) (s : PunchClockState) : PunchClockState :=
  { s with pauseText := txt }

/-- `PunchClockComponent.confirmPause`: `const note = this.pauseText.trim();
if (!note) return;` then records the pause, pushes a `Pausa` event carrying
the note and closes the dialog. The two `new Date()` calls of the body are the
same instant `nowT`. -/
def confirmPause (nowT : Int) (s : PunchClockState) : PunchClockState :=
  let note := jsTrim s.pauseText
  if note = "" then s
  else
    { s with isPaused := true, pausedAt := some nowT,
             events := pushEvent .pausa nowT (some note) s.events,
             pauseDialogVisible := false }

/-- `PunchClockComponent.resumeWork`: early return unless paused with a
recorded pause start; otherwise accumulates the paused interval and pushes a
`Reanudación` event. -/
def resumeWork (nowT : Int) (s : PunchClockState) : PunchClockState :=
  match s.pausedAt with
  | none => s
  | some p =>
    if ¬ s.isPaused then s
    else
      { s with totalPausedMs := s.totalPausedMs + (nowT - p),
               isPaused := false, pausedAt := none,
               events := pushEvent .reanudacion nowT none s.events }

/-- The `ms` quantity of the `counter` computed signal: `none` when the
counter does not display an elapsed duration (off shift it shows the wall
clock, and a negative balance or a missing `lastIn` displays `--:--:--`),
`some ms` when it displays the formatted elapsed working duration `ms`. -/
def counterMs (s : PunchClockState) : Option Int :=
  if ¬ s.isWorking then none
  else
    match s.lastIn with
    | none => none
    | some start =>
      let ms := s.now - start - s.totalPausedMs
      let ms2 :=
        if s.isPaused then
          match s.pausedAt with
          | some p => ms - (s.now - p)
          | none => ms
        else ms
      if ms2 < 0 then none else some ms2

/-- A user/timer interaction with the punch clock. -/
inductive PunchOp where
  | toggle (t : Int) : PunchOp
  | openDialog : PunchOp
  | setNote (txt : String) : PunchOp
  | confirm (t : Int) : PunchOp
  | resume (t : Int) : PunchOp
  | tickOp (t : Int) : PunchOp
deriving DecidableEq

/-- Apply one interaction. -/
def applyOp : PunchOp → PunchClockState → PunchClockState
  | .toggle t, s => toggleWork t s
  | .openDialog, s => openPause s
  | .setNote txt, s => setPauseText txt s
  | .confirm t, s => confirmPause t s
  | .resume t, s => resumeWork t s
  | .tickOp t, s => tickNow t s

/-- Run a sequence of interactions from a given state. -/
def runOps (ops : List PunchOp) (s : PunchClockState) : PunchClockState :=
  ops.foldl (fun s op => applyOp op s) s

/- ===== ScheduleOverviewComponent (features/dashboard/schedule-overview) ===== -/

/-- The three-way shift status (`'done' | 'on' | 'upcoming'`). -/
inductive ShiftStatus where
  | on : ShiftStatus
  | upcoming : ShiftStatus
  | done : ShiftStatus
deriving DecidableEq

/-- `ScheduleEntry`: `start`, `end` and `time` are optional `"HH:mm"` strings
(`end` is a Lean keyword, hence the `?`-suffixed field names for the three
optional fields). -/
structure ScheduleEntry where
  start? : Option String
  end? : Option String
  time? : Option String
  employee : String
  role : String
deriving DecidableEq

/-- `ScheduleOverviewComponent.normalize` (`normalize` itself names a Mathlib
operation): `{ ...e, start: e.start ?? e.time ?? '00:00' }`. -/
def normalizeEntry (e : ScheduleEntry) : ScheduleEntry :=
  { e with start? := some (e.start?.getD (e.time?.getD "00:00")) }

/-- `row.start ?? row.time ?? ''` as evaluated inside `getStatus`, and
`a.start` for normalized rows inside the sort comparator. -/
def rowStart (row : ScheduleEntry) : String :=
  row.start?.getD (row.time?.getD "")

/-- `ScheduleOverviewComponent.getStatus` against the current time `nowS`
(`this.nowHHmm()`): an entry whose `end` is truthy and not after `now` is
`done`; otherwise an entry with a truthy `start` is `on` when `now === start`
(no `end`) or `start <= now < end`; everything else is `upcoming`. A missing
`end` and an empty-string `end` are both falsy and behave identically. -/
def getStatus (nowS : String) (row : ScheduleEntry) : ShiftStatus :=
  let start := rowStart row
  let endv := row.end?.getD ""
  if endv ≠ "" ∧ jsLe endv nowS then .done
  else if start ≠ "" ∧
      (if endv = "" then nowS = start else jsLe start nowS ∧ jsLt nowS endv = true) then
    .on
  else .upcoming

/-- `statusOrder = { on: 0, upcoming: 1, done: 2 }`. -/
def statusOrder : ShiftStatus → Nat
  | .on => 0
  | .upcoming => 1
  | .done => 2

/-- `a.localeCompare(b)` for the `"HH:mm"` strings used here: code-unit
comparison reported as a negative, zero or positive number. -/
def localeCompareInt (a b : String) : Int :=
  if jsLt a b then -1 else if jsLt b a then 1 else 0

/-- The comparator of `sortByStatus`: status rank difference, and
`a.start.localeCompare(b.start)` on equal rank. -/
def cmpRows (nowS : String) (a b : ScheduleEntry) : Int :=
  let sa := statusOrder (getStatus nowS a)
  let sb := statusOrder (getStatus nowS b)
  if sa ≠ sb then (sa : Int) - (sb : Int)
  else localeCompareInt (rowStart a) (rowStart b)

/-- `a` may stay before `b` under the comparator (`cmpRows ≤ 0`). -/
def rowLe (nowS : String) (a b : ScheduleEntry) : Bool :=
  cmpRows nowS a b ≤ 0

/-- `ScheduleOverviewComponent.sortByStatus`: `list.sort(comparator)`.
`Array.prototype.sort` with a consistent comparator is a stable sort by that
comparator, which is exactly `List.mergeSort` with `rowLe`. -/
def sortByStatus (nowS : String) (list : List ScheduleEntry) : List ScheduleEntry :=
  list.mergeSort (rowLe nowS)

/-- The `entries` input setter: normalize every entry, then sort. -/
def setEntries (nowS : String) (value : List ScheduleEntry) : List ScheduleEntry :=
  sortByStatus nowS (value.map normalizeEntry)

/- ===================== Theorems ===================== -/

/-- Claim C2 (counterexample): the plain `requestPasswordReset` variant
(auth.service.ts lines 95-99), evaluated for an email with no account,
propagates the provider's `auth/user-not-found` rejection to its caller
instead of completing successfully — refuting the universal "completes
successfully … never surfaced". -/
theorem requestPasswordResetPlain_surfaces_error :
    requestPasswordResetPlain (sendPasswordResetEmailResult false)
      = Except.error ⟨"auth/user-not-found"⟩ ∧
    requestPasswordResetPlain (sendPasswordResetEmailResult false) ≠ Except.ok () := by
  refine ⟨rfl, fun h => Except.noConfusion h⟩

/-- Claim C2 (amended): the hardened `requestPasswordReset` variant
(part_001) completes successfully whether or not an account exists,
swallowing the provider's `auth/user-not-found` rejection; the plain variant
(auth.service.ts) completes successfully when the account exists and
propagates `auth/user-not-found` to its caller when it does not. -/
theorem requestPasswordReset_variants :
    (∀ accountExists : Bool,
      requestPasswordReset (sendPasswordResetEmailResult accountExists) = Except.ok ()) ∧
    requestPasswordReset (Except.error ⟨"auth/user-not-found"⟩) = Except.ok () ∧
    requestPasswordResetPlain (sendPasswordResetEmailResult true) = Except.ok () ∧
    requestPasswordResetPlain (sendPasswordResetEmailResult false)
      = Except.error ⟨"auth/user-not-found"⟩ := by
  refine ⟨?_, rfl, rfl, rfl⟩
  intro b; cases b <;> rfl

/-- Claim C4: `humanizeFirebaseError` returns the specific Spanish message for
each code of its lookup table, and the generic fallback for every other code,
including a missing code. -/
theorem humanizeFirebaseError_table :
    humanizeFirebaseError (some "auth/email-already-in-use") = "Este correo ya está registrado." ∧
    humanizeFirebaseError (some "auth/weak-password") = "La contraseña es demasiado débil." ∧
    humanizeFirebaseError (some "auth/invalid-email") = "El correo no es válido." ∧
    humanizeFirebaseError (some "auth/invalid-credential") = "Credenciales incorrectas." ∧
    humanizeFirebaseError (some "auth/wrong-password") = "Credenciales incorrectas." ∧
    humanizeFirebaseError (some "auth/network-request-failed")
      = "Problema de red. Inténtalo de nuevo." ∧
    humanizeFirebaseError none = "Error desconocido. Vuelve a intentarlo." ∧
    ∀ c : String,
      c ∉ ["auth/email-already-in-use", "auth/weak-password", "auth/invalid-email",
           "auth/invalid-credential", "auth/wrong-password", "auth/network-request-failed"] →
      humanizeFirebaseError (some c) = "Error desconocido. Vuelve a intentarlo." := by
  refine ⟨by decide, by decide, by decide, by decide, by decide, by decide, by decide, ?_⟩
  intro c hc
  simp only [List.mem_cons, List.not_mem_nil, or_false, not_or] at hc
  obtain ⟨h1, h2, h3, h4, h5, h6⟩ := hc
  simp [humanizeFirebaseError, h1, h2, h3, h4, h5, h6]

/-- Witness for C4: an unmapped code evaluates to the generic fallback. -/
theorem humanizeFirebaseError_table_witness :
    humanizeFirebaseError (some "auth/operation-not-allowed")
      = "Error desconocido. Vuelve a intentarlo." :=
  humanizeFirebaseError_table.2.2.2.2.2.2.2 "auth/operation-not-allowed" (by decide)

/-- Claim C8: after every completed `logout` call — also when the provider's
`signOut` rejects — the token subject holds `null`, the `token` key is removed
from local storage, and the error, if any, still propagates. -/
theorem logout_clears_local_session :
    ∀ (signOutResult : Except FirebaseError Unit) (s : AuthLocalState),
      (logout signOutResult s).2.tokenSubject = none ∧
      (logout signOutResult s).2.storageToken = none ∧
      (logout signOutResult s).1 = signOutResult := by
  intro r s
  cases r <;> simp [logout]

/-- Claim C1 (counterexample): the `CanMatchFn` form of `authGuard`, evaluated
with no valid token, redirects to the login route with NO query parameters —
in particular no `returnUrl` — refuting the claim that every tokenless guard
evaluation redirects with the requested URL as `returnUrl`. -/
theorem authGuardCanMatch_no_returnUrl :
    authGuardCanMatch none = GuardResult.redirect ["/auth/login"] [] ∧
    (queryParamsOf (authGuardCanMatch none)).lookup "returnUrl" = none ∧
    authGuardCanMatch none ≠ GuardResult.allow := by
  refine ⟨by decide, by decide, by decide⟩

/-- Claim C1 (amended): when no truthy token is available, the `CanActivateFn`
form of `authGuard` redirects to the login route with the originally requested
URL as the `returnUrl` query parameter, while the `CanMatchFn` form redirects
to the login route without query parameters; both return `true` when a truthy
token is available. -/
theorem authGuard_login_redirect :
    ∀ (validToken storedToken : Option String) (stateUrl : String),
      (jsTruthyOpt validToken = false →
        authGuardCanMatch validToken = GuardResult.redirect ["/auth/login"] []) ∧
      (jsTruthyOpt validToken = true →
        authGuardCanMatch validToken = GuardResult.allow) ∧
      (jsTruthyOpt (tokenWithFallback validToken storedToken) = false →
        authGuardCanActivate validToken storedToken stateUrl
          = GuardResult.redirect ["/auth/login"] [("returnUrl", stateUrl)]) ∧
      (jsTruthyOpt (tokenWithFallback validToken storedToken) = true →
        authGuardCanActivate validToken storedToken stateUrl = GuardResult.allow) := by
  intro vt st url
  refine ⟨?_, ?_, ?_, ?_⟩ <;> intro h <;>
    simp [authGuardCanMatch, authGuardCanActivate, h]

/-- Witness for C1: a concrete tokenless `CanActivateFn` evaluation redirects
with `returnUrl`, and a concrete evaluation with a token allows. -/
theorem authGuard_login_redirect_witness :
    authGuardCanActivate none none "/dashboard"
      = GuardResult.redirect ["/auth/login"] [("returnUrl", "/dashboard")] ∧
    authGuardCanMatch (some "tok") = GuardResult.allow :=
  ⟨(authGuard_login_redirect none none "/dashboard").2.2.1 (by decide),
   (authGuard_login_redirect (some "tok") none "/x").2.1 (by decide)⟩

/-- Claim C5 (counterexample): a request matching the API base forwarded with
the non-null token `some ""` (falsy in JS) passes through with NO
`Authorization` header, refuting the claim that every non-null token gets the
bearer header attached. -/
theorem authInterceptor_empty_token_counterexample :
    authInterceptor "https://api.timelogic.com" (some "")
        { method := "GET", url := "https://api.timelogic.com/v1/kpis",
          headers := [], body := "" }
      = { method := "GET", url := "https://api.timelogic.com/v1/kpis",
          headers := [], body := "" } ∧
    (some "" : Option String) ≠ none ∧
    (authInterceptor "https://api.timelogic.com" (some "")
        { method := "GET", url := "https://api.timelogic.com/v1/kpis",
          headers := [], body := "" }).headers.lookup "Authorization" = none := by
  refine ⟨by decide, by decide, by decide⟩

/-- Claim C5 (amended): a request whose URL does not start with the API base
is forwarded completely unchanged; a matching request with a non-null,
non-empty token is forwarded differing only in the `Authorization: Bearer`
header being set; a matching request with a null (or empty, hence falsy)
token is forwarded unchanged. -/
theorem authInterceptor_forwarding :
    ∀ (api : String) (token : Option String) (req : HttpReq),
      (jsStartsWith req.url.data api.data = false → authInterceptor api token req = req) ∧
      (∀ t : String, token = some t → t ≠ "" →
        jsStartsWith req.url.data api.data = true →
        authInterceptor api token req
          = { req with headers := setHeader "Authorization" ("Bearer " ++ t) req.headers }) ∧
      (token = none → authInterceptor api token req = req) ∧
      (token = some "" → authInterceptor api token req = req) := by
  intro api token req
  refine ⟨?_, ?_, ?_, ?_⟩
  · intro h; simp [authInterceptor, h]
  · intro t ht hne hs
    subst ht
    simp [authInterceptor, hs, jsTruthyOpt, hne]
  · intro h; subst h; simp [authInterceptor, jsTruthyOpt]
  · intro h; subst h; simp [authInterceptor, jsTruthyOpt]

/-- Witness for C5: a concrete matching request with a real token gets
exactly the bearer header added. -/
theorem authInterceptor_forwarding_witness :
    authInterceptor "https://api.timelogic.com" (some "tok123")
        { method := "GET", url := "https://api.timelogic.com/v1/kpis",
          headers := [("Accept", "application/json")], body := "" }
      = { method := "GET", url := "https://api.timelogic.com/v1/kpis",
          headers := [("Authorization", "Bearer tok123"), ("Accept", "application/json")],
          body := "" } := by
  have h := (authInterceptor_forwarding "https://api.timelogic.com" (some "tok123")
      { method := "GET", url := "https://api.timelogic.com/v1/kpis",
        headers := [("Accept", "application/json")], body := "" }).2.1
    "tok123" rfl (by decide) (by decide)
  simpa [setHeader] using h

/-- Claim C6: when the email control fails its validators (making the form
invalid), `onSubmit` returns without calling `AuthService.login`, without
navigating and without opening a snackbar (empty effect list), leaving the
component state — `loading`, `errorMessage`, the form — unchanged, the form
being invalid. -/
theorem onSubmit_invalid_email_noop :
    ∀ (loginResult : Except FirebaseError Unit) (s : LoginComponentState),
      emailControlValid s.form.email = false →
      onSubmit loginResult s = (s, []) ∧ loginFormValid s.form = false := by
  intro r s h
  have hform : loginFormValid s.form = false := by simp [loginFormValid, h]
  exact ⟨by simp [onSubmit, hform], hform⟩

/-- Witness for C6: a concrete submission with a syntactically invalid email
(no `@`) is a no-op. -/
theorem onSubmit_invalid_email_noop_witness :
    onSubmit (Except.ok ())
        { form := { email := "pedro.mail.com", password := "secret123", rememberMe := false },
          loading := false, errorMessage := none, rememberedEmailStore := none }
      = ({ form := { email := "pedro.mail.com", password := "secret123", rememberMe := false },
           loading := false, errorMessage := none, rememberedEmailStore := none }, []) :=
  (onSubmit_invalid_email_noop (Except.ok ())
    { form := { email := "pedro.mail.com", password := "secret123", rememberMe := false },
      loading := false, errorMessage := none, rememberedEmailStore := none }
    (by decide)).1

/-- Claim C10: `confirmPause` with a pause note that is empty or whitespace
only leaves the entire component state unchanged — no pause recorded, no
event pushed, and the pause dialog stays as it was (open). -/
theorem confirmPause_blank_note_noop :
    ∀ (nowT : Int) (s : PunchClockState),
      jsTrim s.pauseText = "" → confirmPause nowT s = s := by
  intro t s h
  simp [confirmPause, h]

/-- Witness for C10: a concrete paused-dialog state with a whitespace-only
note is left untouched by `confirmPause`. -/
theorem confirmPause_blank_note_noop_witness :
    confirmPause 1000
        { isWorking := true, isPaused := false, lastIn := some 0, pausedAt := none,
          totalPausedMs := 0, now := 1000, pauseDialogVisible := true,
          pauseText := "   ", events := [] }
      = { isWorking := true, isPaused := false, lastIn := some 0, pausedAt := none,
          totalPausedMs := 0, now := 1000, pauseDialogVisible := true,
          pauseText := "   ", events := [] } :=
  confirmPause_blank_note_noop 1000
    { isWorking := true, isPaused := false, lastIn := some 0, pausedAt := none,
      totalPausedMs := 0, now := 1000, pauseDialogVisible := true,
      pauseText := "   ", events := [] }
    (by decide)

/-- `pushEvent` always equals: prepend the new event, keep the
`MAX_HISTORY` most recent. -/
theorem pushEvent_eq_take (type : EventType) (when : Int) (note : Option String)
    (l : List PunchEvent) :
    pushEvent type when note l
      = ({ id := when, type := type, «at» := when,
           note := note.bind (fun n => if n = "" then none else some n) } :: l).take
          MAX_HISTORY := by
  unfold pushEvent
  dsimp only
  split
  · rfl
  · next h => exact (List.take_of_length_le (by omega)).symm

/-- Any `pushEvent` result has at most `MAX_HISTORY` entries. -/
theorem pushEvent_length_le (type : EventType) (when : Int) (note : Option String)
    (l : List PunchEvent) : (pushEvent type when note l).length ≤ MAX_HISTORY := by
  rw [pushEvent_eq_take]
  exact List.length_take_le _ _

/-- Every punch-clock interaction preserves the history bound. -/
theorem applyOp_events_le (op : PunchOp) (s : PunchClockState)
    (h : s.events.length ≤ MAX_HISTORY) :
    (applyOp op s).events.length ≤ MAX_HISTORY := by
  cases op with
  | toggle t =>
    simp only [applyOp, toggleWork]
    split <;> exact pushEvent_length_le ..
  | openDialog =>
    simp only [applyOp, openPause]
    split <;> exact h
  | setNote txt => exact h
  | confirm t =>
    simp only [applyOp, confirmPause]
    split
    · exact h
    · exact pushEvent_length_le ..
  | resume t =>
    simp only [applyOp, resumeWork]
    split
    · exact h
    · split
      · exact h
      · exact pushEvent_length_le ..
  | tickOp t => exact h

/-- The history bound is an invariant of arbitrary interaction sequences. -/
theorem runOps_events_le (ops : List PunchOp) (s : PunchClockState)
    (h : s.events.length ≤ MAX_HISTORY) :
    (runOps ops s).events.length ≤ MAX_HISTORY := by
  induction ops generalizing s with
  | nil => exact h
  | cons op rest ih => exact ih _ (applyOp_events_le op s h)

/-- Claim C9: over every sequence of punch-clock interactions from the
initial state the event history holds at most `MAX_HISTORY = 30` entries, and
each recorded event is prepended with the list truncated to the 30 most
recent entries (newest first). -/
theorem punch_history_bounded_newest_first :
    (∀ (ops : List PunchOp) (t0 : Int),
      (runOps ops (mkInitial t0)).events.length ≤ MAX_HISTORY) ∧
    (∀ (type : EventType) (when : Int) (note : Option String) (l : List PunchEvent),
      pushEvent type when note l
        = ({ id := when, type := type, «at» := when,
             note := note.bind (fun n => if n = "" then none else some n) } :: l).take
            MAX_HISTORY) :=
  ⟨fun ops t0 => runOps_events_le ops _ (by simp [mkInitial]),
   pushEvent_eq_take⟩

/-- Claim C3: running sign in (`toggleWork` entering) at `t1`, pause
(`confirmPause` with a non-blank note) at `t2`, resume (`resumeWork`) at `t3`
with the display clock at `t4` — the sign-out instant — in non-decreasing
order, the elapsed working duration computed by `counter` is
`(t4 - t1) - (t3 - t2)` and is non-negative; after signing out
(`toggleWork` exiting) the counter shows the wall clock again. -/
theorem punch_sequence_counter_nonneg :
    ∀ (t0 t1 t2 t3 t4 : Int) (note : String),
      t1 ≤ t2 → t2 ≤ t3 → t3 ≤ t4 → jsTrim note ≠ "" →
      counterMs (tickNow t4
          (resumeWork t3 (confirmPause t2
            (setPauseText note (openPause (toggleWork t1 (mkInitial t0)))))))
        = some ((t4 - t1) - (t3 - t2)) ∧
      0 ≤ (t4 - t1) - (t3 - t2) ∧
      counterMs (toggleWork t4 (tickNow t4
          (resumeWork t3 (confirmPause t2
            (setPauseText note (openPause (toggleWork t1 (mkInitial t0)))))))) = none := by
  intro t0 t1 t2 t3 t4 note h12 h23 h34 hnote
  refine ⟨?_, by omega, ?_⟩
  · simp only [mkInitial, toggleWork, openPause, setPauseText, confirmPause,
      resumeWork, tickNow, counterMs, hnote]
    simp [hnote]
    omega
  · simp only [mkInitial, toggleWork, openPause, setPauseText, confirmPause,
      resumeWork, tickNow, counterMs, hnote]
    simp [hnote]

/-- Witness for C3: the concrete sequence in at 5, pause at 10, resume at 15,
out at 20 yields elapsed duration 10 ms. -/
theorem punch_sequence_counter_nonneg_witness :
    counterMs (tickNow 20
        (resumeWork 15 (confirmPause 10
          (setPauseText "café" (openPause (toggleWork 5 (mkInitial 0)))))))
      = some ((20 - 5) - (15 - 10)) ∧
    0 ≤ ((20 : Int) - 5) - (15 - 10) ∧
    counterMs (toggleWork 20 (tickNow 20
        (resumeWork 15 (confirmPause 10
          (setPauseText "café" (openPause (toggleWork 5 (mkInitial 0)))))))) = none :=
  punch_sequence_counter_nonneg 0 5 10 15 20 "café"
    (by decide) (by decide) (by decide) (by decide)

/-- The JS string order is transitive. -/
theorem jsLtChars_trans :
    ∀ a b c : List Char,
      jsLtChars a b = true → jsLtChars b c = true → jsLtChars a c = true := by
  intro a
  induction a with
  | nil =>
    intro b c hab hbc
    cases b with
    | nil => simp [jsLtChars] at hab
    | cons y ys =>
      cases c with
      | nil => simp [jsLtChars] at hbc
      | cons z zs => simp [jsLtChars]
  | cons x xs ih =>
    intro b c hab hbc
    cases b with
    | nil => simp [jsLtChars] at hab
    | cons y ys =>
      cases c with
      | nil => simp [jsLtChars] at hbc
      | cons z zs =>
        simp only [jsLtChars] at hab hbc ⊢
        split_ifs at hab hbc ⊢ <;>
          first
          | rfl
          | exact ih ys zs hab hbc
          | (exfalso; omega)

/-- The JS string order is asymmetric. -/
theorem jsLtChars_asymm :
    ∀ a b : List Char, jsLtChars a b = true → jsLtChars b a = false := by
  intro a
  induction a with
  | nil =>
    intro b hab
    cases b with
    | nil => simp [jsLtChars] at hab
    | cons y ys => simp [jsLtChars]
  | cons x xs ih =>
    intro b hab
    cases b with
    | nil => simp [jsLtChars] at hab
    | cons y ys =>
      simp only [jsLtChars] at hab ⊢
      split_ifs at hab ⊢ <;>
        first
        | rfl
        | exact ih ys hab
        | (exfalso; omega)

/-- Two strings neither of which precedes the other are equal. -/
theorem jsLtChars_eq_of_not :
    ∀ a b : List Char, jsLtChars a b = false → jsLtChars b a = false → a = b := by
  intro a
  induction a with
  | nil =>
    intro b hab _
    cases b with
    | nil => rfl
    | cons y ys => simp [jsLtChars] at hab
  | cons x xs ih =>
    intro b hab hba
    cases b with
    | nil => simp [jsLtChars] at hba
    | cons y ys =>
      simp only [jsLtChars] at hab hba
      by_cases h1 : x.toNat < y.toNat
      · simp [h1] at hab
      · by_cases h2 : y.toNat < x.toNat
        · simp [h1, h2] at hba
        · simp [h1, h2] at hab hba
          have h0 : x.toNat = y.toNat := by omega
          have hx : x = y := Char.ext (UInt32.ext h0)
          rw [hx, ih ys hab hba]

/-- Not-precedes is transitive (derived from the three facts above). -/
theorem jsLtChars_false_trans :
    ∀ a b c : List Char,
      jsLtChars b a = false → jsLtChars c b = false → jsLtChars c a = false := by
  intro a b c h1 h2
  cases hbc : jsLtChars b c with
  | false =>
    have : b = c := jsLtChars_eq_of_not b c hbc h2
    subst this
    exact h1
  | true =>
    cases hca : jsLtChars c a with
    | false => rfl
    | true =>
      have h3 := jsLtChars_trans b c a hbc hca
      rw [h1] at h3
      cases h3

/-- String-level restatement of asymmetry. -/
theorem jsLt_asymm (a b : String) (h : jsLt a b = true) : jsLt b a = false :=
  jsLtChars_asymm a.data b.data h

/-- String-level restatement of not-precedes transitivity. -/
theorem jsLt_false_trans (a b c : String)
    (h1 : jsLt b a = false) (h2 : jsLt c b = false) : jsLt c a = false :=
  jsLtChars_false_trans a.data b.data c.data h1 h2

/-- Characterization of the sort comparator: `a` may stay before `b` exactly
when `a`'s status ranks strictly earlier, or the ranks tie and `b`'s start
does not precede `a`'s. -/
theorem rowLe_iff (nowS : String) (a b : ScheduleEntry) :
    rowLe nowS a b = true ↔
      (statusOrder (getStatus nowS a) < statusOrder (getStatus nowS b) ∨
       (statusOrder (getStatus nowS a) = statusOrder (getStatus nowS b) ∧
        jsLt (rowStart b) (rowStart a) = false)) := by
  unfold rowLe cmpRows localeCompareInt
  by_cases hs : statusOrder (getStatus nowS a) = statusOrder (getStatus nowS b)
  · cases h1 : jsLt (rowStart a) (rowStart b) with
    | true =>
      have h2 := jsLt_asymm _ _ h1
      simp [hs, h1, h2]
    | false =>
      cases h2 : jsLt (rowStart b) (rowStart a) with
      | true => simp [hs, h1, h2]
      | false => simp [hs, h1, h2]
  · simp only [hs, ne_eq, not_false_eq_true, if_true, decide_eq_true_eq]
    constructor
    · intro h
      exact Or.inl (by omega)
    · rintro (h | ⟨h, _⟩)
      · omega
      · exact h.elim


/-- The comparator's `may-stay-before` relation is transitive. -/
theorem rowLe_trans (nowS : String) :
    ∀ a b c : ScheduleEntry,
      rowLe nowS a b = true → rowLe nowS b c = true → rowLe nowS a c = true := by
  intro a b c hab hbc
  rw [rowLe_iff] at hab hbc ⊢
  rcases hab with h1 | ⟨h1, h1'⟩ <;> rcases hbc with h2 | ⟨h2, h2'⟩
  · exact Or.inl (by omega)
  · exact Or.inl (by omega)
  · exact Or.inl (by omega)
  · exact Or.inr ⟨by omega, jsLt_false_trans _ _ _ h1' h2'⟩

/-- The comparator's `may-stay-before` relation is total. -/
theorem rowLe_total (nowS : String) :
    ∀ a b : ScheduleEntry, (rowLe nowS a b || rowLe nowS b a) = true := by
  intro a b
  rw [Bool.or_eq_true, rowLe_iff, rowLe_iff]
  rcases Nat.lt_trichotomy (statusOrder (getStatus nowS a))
      (statusOrder (getStatus nowS b)) with h | h | h
  · exact Or.inl (Or.inl h)
  · cases h2 : jsLt (rowStart b) (rowStart a) with
    | false => exact Or.inl (Or.inr ⟨h, rfl⟩)
    | true => exact Or.inr (Or.inr ⟨h.symm, jsLt_asymm _ _ h2⟩)
  · exact Or.inr (Or.inl h)

/-- Normalization is the identity on entries that already carry a `start`. -/
theorem normalizeEntry_of_isSome (e : ScheduleEntry) (h : e.start?.isSome) :
    normalizeEntry e = e := by
  cases e with
  | mk s? e? t? emp r =>
    cases s? with
    | none => simp at h
    | some s => simp [normalizeEntry]

/-- The concrete input row of the C7 counterexample: only `time` is set. -/
def anaInputRow : ScheduleEntry :=
  { start? := none, end? := none, time? := some "08:00",
    employee := "Ana", role := "Recepción" }

/-- Claim C7 (counterexample): an input entry carrying only `time` is not
contained in the component's produced list — the setter normalizes it (adds
`start`) before sorting — refuting "containing exactly the same entries as
the input". -/
theorem scheduleOverview_not_input_entries :
    anaInputRow ∉ setEntries "09:00" [anaInputRow] ∧
    setEntries "09:00" [anaInputRow]
      = [{ start? := some "08:00", end? := none, time? := some "08:00",
           employee := "Ana", role := "Recepción" }] := by
  have h : setEntries "09:00" [anaInputRow] = [normalizeEntry anaInputRow] := by
    simp [setEntries, sortByStatus, List.mergeSort_singleton]
  constructor
  · rw [h]; decide
  · rw [h]; decide

/-- Claim C7 (amended): for every current time and input list, the
schedule-overview setter produces a permutation of the NORMALIZED input
entries (`start` defaulted from `time` or `'00:00'`), sorted with status
`on` before `upcoming` before `done` and, on equal status, by non-descending
start string; when every input entry already carries a `start`, the output is
a permutation of exactly the input entries. -/
theorem scheduleOverview_sorted :
    ∀ (nowS : String) (value : List ScheduleEntry),
      (setEntries nowS value).Perm (value.map normalizeEntry) ∧
      List.Pairwise (fun a b =>
        statusOrder (getStatus nowS a) < statusOrder (getStatus nowS b) ∨
        (statusOrder (getStatus nowS a) = statusOrder (getStatus nowS b) ∧
          jsLe (rowStart a) (rowStart b) = true)) (setEntries nowS value) ∧
      ((∀ e ∈ value, e.start?.isSome) → (setEntries nowS value).Perm value) := by
  intro nowS value
  refine ⟨List.mergeSort_perm _ _, ?_, ?_⟩
  · have hp := List.sorted_mergeSort (rowLe_trans nowS) (rowLe_total nowS)
      (value.map normalizeEntry)
    refine hp.imp ?_
    intro a b hab
    rw [rowLe_iff] at hab
    rcases hab with h | ⟨h1, h2⟩
    · exact Or.inl h
    · exact Or.inr ⟨h1, by simp [jsLe, h2]⟩
  · intro hall
    have hmap : value.map normalizeEntry = value := by
      have hcong : value.map normalizeEntry = value.map id :=
        List.map_congr_left (fun e he => normalizeEntry_of_isSome e (hall e he))
      rw [hcong, List.map_id]
    have h2 : (value.map normalizeEntry).Perm value := by
      rw [hmap]
    exact (List.mergeSort_perm _ _).trans h2

/-- Witness for C7: a concrete singleton list whose entry already has a
`start` comes back as exactly that entry. -/
theorem scheduleOverview_sorted_witness :
    (setEntries "09:30"
        [{ start? := some "09:00", end? := some "10:00", time? := none,
           employee := "Carlos", role := "Ventas" }]).Perm
      [{ start? := some "09:00", end? := some "10:00", time? := none,
         employee := "Carlos", role := "Ventas" }] :=
  (scheduleOverview_sorted "09:30"
    [{ start? := some "09:00", end? := some "10:00", time? := none,
       employee := "Carlos", role := "Ventas" }]).2.2 (by decide)
